import Mathlib

/-!
Shallow embedding of the shopping-cart client (`cart.js`) and the
search-filter widget of this repository, with theorems checking the
specification's claims against the code.

Modelling conventions:
* JavaScript numbers are modelled as `Int` (all values the code handles
  are integral; no claim exercises fractional arithmetic).
* `localStorage` is modelled as the single cell for the key `"cart"`:
  an `Option String` (`none` = key absent), since the cart code reads and
  writes only that key.
* DOM side effects (`displayCart`, `updateCartCount`, toasts,
  `console.log`) are modelled as counters / logs in the state record, so
  that frame conditions ("no re-render", "no write") are statable.
* `JSON.stringify` of the cart array is modelled by a concrete printer
  `stringifyCart`; `JSON.parse` by an executable recursive-descent parser
  `jsonParse` over the full JSON grammar (numbers with fraction and
  exponent kept as exact rationals, all string escapes including
  `\uXXXX`) that returns `none` exactly where `JSON.parse` throws.
* `ToNumber` on strings (`toNumber`) and radix-free `parseInt`
  (`parseIntJS`) follow the ECMAScript grammars: whitespace trimming,
  signs, fractions, exponents, `Infinity`, and `0x`/`0o`/`0b` prefixes,
  with values as exact rationals (IEEE double rounding not modelled).
-/

/-- One entry of the cart array: the object literal built in `addToCart`
(`cart.js` lines 31-36), with fields `id`, `name`, `price`, `quantity`. -/
structure Item where
  id : Int
  name : String
  price : Int
  quantity : Int
deriving Repr, DecidableEq

abbrev Cart := List Item

/-- State of the cart page: the in-memory `cart` array, the
`localStorage` cell for key `"cart"`, and effect counters/logs for the
DOM collaborators. -/
structure St where
  cart : Cart
  stored : Option String
  writes : Nat
  renders : Nat
  badge : Nat
  toasts : List String
  logs : List String
deriving Repr, DecidableEq

/-- The page's initial state with an empty cart and nothing stored. -/
def emptyState : St :=
  { cart := [], stored := none, writes := 0, renders := 0, badge := 0,
    toasts := [], logs := [] }

/-- Escapes a string for a JSON string literal the way `JSON.stringify`
does for the quote and backslash characters (the only escapes the cart's
data can require here). -/
def escapeJSON (s : String) : String :=
  String.mk (s.data.foldr
    (fun c acc =>
      if c = '"' then '\\' :: '"' :: acc
      else if c = '\\' then '\\' :: '\\' :: acc
      else c :: acc) [])

/-- `JSON.stringify` of one cart item object (key order as built in
`addToCart`: `id`, `name`, `price`, `quantity`). -/
def stringifyItem (item : Item) : String :=
  "\x7b\"id\":" ++ toString item.id ++
  ",\"name\":\"" ++ escapeJSON item.name ++
  "\",\"price\":" ++ toString item.price ++
  ",\"quantity\":" ++ toString item.quantity ++ "\x7d"

/-- `JSON.stringify(cart)` for the whole cart array. -/
def stringifyCart (cart : Cart) : String :=
  "[" ++ String.intercalate "," (cart.map stringifyItem) ++ "]"

/-- `localStorage.setItem('cart', JSON.stringify(cart))`: writes the
serialized cart and counts one store write. -/
def setItemCart (s : St) : St :=
  { s with stored := some (stringifyCart s.cart), writes := s.writes + 1 }

/-- `displayCart()` (`cart.js` lines 142-195): pure rendering of the cart
into the DOM; modelled as one render effect (it reads the cart and the
total but mutates neither). -/
def displayCart (s : St) : St :=
  { s with renders := s.renders + 1 }

/-- `updateCartCount()` (`cart.js` lines 198-213): refreshes the badge
from the cart; modelled as one badge-update effect. -/
def updateCartCount (s : St) : St :=
  { s with badge := s.badge + 1 }

/-- `showToast(message)` as called from `addToCart`: records the shown
message (the timing behaviour is modelled separately below). -/
def showToastEffect (message : String) (s : St) : St :=
  { s with toasts := s.toasts ++ [message] }

/-- `console.log(...)`: records a log line. -/
def consoleLog (line : String) (s : St) : St :=
  { s with logs := s.logs ++ [line] }

/-- `cart.find(item => item.id === productId)`: first item with the id. -/
def findItem (cart : Cart) (productId : Int) : Option Item :=
  cart.find? (fun item => item.id = productId)

/-- `existingProduct.quantity += 1` after `cart.find(...)`: increments the
quantity of the first item with the given id (the found object is mutated
in place in the array). -/
def incFirst (productId : Int) : Cart → Cart
  | [] => []
  | item :: rest =>
    if item.id = productId then
      { item with quantity := item.quantity + 1 } :: rest
    else
      item :: incFirst productId rest

/-- `cart.findIndex(...)` + `cart.splice(index, 1)`: removes the first
item with the given id, leaves the cart unchanged if none matches. -/
def removeFirst (productId : Int) : Cart → Cart
  | [] => []
  | item :: rest =>
    if item.id = productId then rest else item :: removeFirst productId rest

/-- `product.quantity = newQuantity` after `cart.find(...)`: sets the
quantity of the first item with the given id. -/
def setQtyFirst (productId : Int) (newQuantity : Int) : Cart → Cart
  | [] => []
  | item :: rest =>
    if item.id = productId then
      { item with quantity := newQuantity } :: rest
    else
      item :: setQtyFirst productId newQuantity rest

/-- `cart.reduce((sum, item) => sum + item.quantity, 0)`. -/
def totalQuantity (cart : Cart) : Int :=
  cart.foldl (fun sum item => sum + item.quantity) 0

/-- `addToCart(productName, price, productId)` (`cart.js` lines 23-82):
log, build the product object, increment an existing line or push a new
one, persist, toast with the item count, refresh the badge. -/
def addToCart (productName : String) (price : Int) (productId : Int)
    (s0 : St) : St :=
  let s := consoleLog ("addToCart called → " ++ productName) s0
  let product : Item :=
    { id := productId, name := productName, price := price, quantity := 1 }
  let cart' :=
    if (findItem s.cart productId).isSome then incFirst productId s.cart
    else s.cart ++ [product]
  let s := { s with cart := cart' }
  let s := setItemCart s
  let totalItems := totalQuantity s.cart
  let s := showToastEffect
    ("✓ " ++ productName ++ " added! (" ++ toString totalItems ++ " in cart)") s
  updateCartCount s

/-- `removeFromCart(productId)` (`cart.js` lines 85-104): splice out the
first matching line if present, then always persist, re-render and
refresh the badge. -/
def removeFromCart (productId : Int) (s0 : St) : St :=
  let s := { s0 with cart := removeFirst productId s0.cart }
  let s := setItemCart s
  let s := displayCart s
  updateCartCount s

/-- `updateQuantity(productId, newQuantity)` (`cart.js` lines 107-130):
no-op when the id is absent; delegate to `removeFromCart` when
`newQuantity <= 0`; otherwise set the quantity, persist, re-render,
refresh the badge. -/
def updateQuantity (productId : Int) (newQuantity : Int) (s0 : St) : St :=
  match findItem s0.cart productId with
  | none => s0
  | some _ =>
    if newQuantity ≤ 0 then
      removeFromCart productId s0
    else
      let s := { s0 with cart := setQtyFirst productId newQuantity s0.cart }
      let s := setItemCart s
      let s := displayCart s
      updateCartCount s

/-- `calculateTotal()` (`cart.js` lines 133-139):
`cart.reduce((total, item) => total + (item.price * item.quantity), 0)`. -/
def calculateTotal (cart : Cart) : Int :=
  cart.foldl (fun total item => total + item.price * item.quantity) 0

/-- `clearCart()` (`cart.js` lines 216-233): `confirm(...)` is modelled by
the `confirmed` argument (the user's answer to the blocking prompt);
confirmed: empty the cart, persist, re-render, refresh badge; declined:
only a console log. -/
def clearCart (confirmed : Bool) (s0 : St) : St :=
  if confirmed then
    let s := { s0 with cart := [] }
    let s := setItemCart s
    let s := displayCart s
    updateCartCount s
  else
    consoleLog "Cart clear cancelled by user" s0

/-- A JavaScript value as producible by `JSON.parse`; numbers are kept
as exact rationals (IEEE double rounding is not modelled; it never
decides between a thrown `SyntaxError` and a successful parse, which is
all the initializer's fault behaviour depends on). -/
inductive JSValue where
  | null
  | boolean (b : Bool)
  | num (n : Rat)
  | str (s : String)
  | arr (elems : List JSValue)
  | obj (fields : List (String × JSValue))
deriving Repr

/-- The opening-brace character of JSON object syntax. -/
def lbrace : Char := Char.ofNat 123

/-- The closing-brace character of JSON object syntax. -/
def rbrace : Char := Char.ofNat 125

/-- Skips JSON whitespace characters. -/
def skipWs : List Char → List Char
  | c :: rest =>
    if c = ' ' ∨ c = '\t' ∨ c = '\n' ∨ c = '\r' then skipWs rest else c :: rest
  | [] => []

/-- Consumes a maximal decimal digit prefix, accumulating its value and
counting the digits consumed. -/
def digitsAccCount (v k : Nat) : List Char → Nat × Nat × List Char
  | c :: rest =>
    if c.isDigit then digitsAccCount (v * 10 + (c.toNat - 48)) (k + 1) rest
    else (v, k, c :: rest)
  | [] => (v, k, [])

/-- Value of a hexadecimal digit character, if it is one. -/
def hexDigitVal (c : Char) : Option Nat :=
  if c.isDigit then some (c.toNat - 48)
  else if 'a' ≤ c ∧ c ≤ 'f' then some (c.toNat - 87)
  else if 'A' ≤ c ∧ c ≤ 'F' then some (c.toNat - 55)
  else none

/-- The exact rational value of the decimal literal with integer digits
`i`, fraction digits `f` (of count `k`) and exponent `e` signed by
`eneg`: `(i.f) * 10 ^ ±e`, built from one `mkRat` over integer
arithmetic. -/
def combineDec (i f k : Nat) (eneg : Bool) (e : Nat) : Rat :=
  let mantissa : Nat := i * 10 ^ k + f
  if eneg then mkRat (Int.ofNat mantissa) (10 ^ k * 10 ^ e)
  else mkRat (Int.ofNat (mantissa * 10 ^ e)) (10 ^ k)

/-- Parses the signed digit run of an exponent part (after `e`/`E`);
at least one digit is required. -/
def parseExpDigits (input : List Char) : Option ((Bool × Nat) × List Char) :=
  let p : Bool × List Char :=
    match input with
    | '-' :: r => (true, r)
    | '+' :: r => (false, r)
    | r => (false, r)
  match p.2 with
  | c :: _ =>
    if c.isDigit then
      let d := digitsAccCount 0 0 p.2
      some ((p.1, d.1), d.2.2)
    else none
  | [] => none

/-- Parses an optional exponent part (`e`/`E`, optional sign, digits),
returning its sign and magnitude (`(false, 0)` when absent). -/
def parseExpPart : List Char → Option ((Bool × Nat) × List Char)
  | 'e' :: rest => parseExpDigits rest
  | 'E' :: rest => parseExpDigits rest
  | rest => some ((false, 0), rest)

/-- Parses the optional fraction (`.` plus at least one digit) and
exponent of a JSON number whose integer part has value `i`, negating the
result when `neg`. -/
def parseFracExp (neg : Bool) (i : Nat) (input : List Char) :
    Option (Rat × List Char) :=
  let base : Option ((Nat × Nat) × List Char) :=
    match input with
    | '.' :: rest =>
      match rest with
      | c :: _ =>
        if c.isDigit then
          let d := digitsAccCount 0 0 rest
          some ((d.1, d.2.1), d.2.2)
        else none
      | [] => none
    | rest => some ((0, 0), rest)
  match base with
  | none => none
  | some (fk, r) =>
    match parseExpPart r with
    | none => none
    | some (ee, r2) =>
      let q := combineDec i fk.1 fk.2 ee.1 ee.2
      some ((if neg then -q else q), r2)

/-- Parses a JSON number after its optional leading minus: the integer
part is `0` or a digit run not starting with `0` (the JSON grammar
forbids other leading zeros), then optional fraction and exponent. -/
def parseJSONNumberBody (neg : Bool) : List Char → Option (Rat × List Char)
  | c :: rest =>
    if c = '0' then parseFracExp neg 0 rest
    else if c.isDigit then
      let d := digitsAccCount (c.toNat - 48) 1 rest
      parseFracExp neg d.1 d.2.2
    else none
  | [] => none

/-- Parses the body of a JSON string literal after the opening quote,
returning the decoded characters and the input after the closing quote;
`none` where `JSON.parse` would throw: an unterminated string, an
unknown escape, or an unescaped control character. All JSON escapes are
supported (`\" \\ \/ \b \f \n \r \t \uXXXX`; a `\uXXXX` in a
surrogate range decodes to a placeholder character, which affects only
the decoded text, never success or failure). -/
def parseStringBody : List Char → Option (List Char × List Char)
  | [] => none
  | '"' :: rest => some ([], rest)
  | '\\' :: e :: rest =>
    if e = 'u' then
      match rest with
      | a :: b :: c :: d :: r2 =>
        match hexDigitVal a, hexDigitVal b, hexDigitVal c, hexDigitVal d with
        | some x1, some x2, some x3, some x4 =>
          (parseStringBody r2).map (fun p =>
            (Char.ofNat (((x1 * 16 + x2) * 16 + x3) * 16 + x4) :: p.1, p.2))
        | _, _, _, _ => none
      | _ => none
    else
      let esc : Option Char :=
        if e = '"' then some '"'
        else if e = '\\' then some '\\'
        else if e = '/' then some '/'
        else if e = 'n' then some '\n'
        else if e = 't' then some '\t'
        else if e = 'r' then some '\r'
        else if e = 'b' then some (Char.ofNat 8)
        else if e = 'f' then some (Char.ofNat 12)
        else none
      match esc with
      | some c => (parseStringBody rest).map (fun p => (c :: p.1, p.2))
      | none => none
  | c :: rest =>
    if c.toNat < 32 then none
    else (parseStringBody rest).map (fun p => (c :: p.1, p.2))

mutual

/-- Recursive-descent JSON value parser (fuel-indexed; callers pass fuel
larger than the input length, which bounds the recursion depth). -/
def parseVal : Nat → List Char → Option (JSValue × List Char)
  | 0, _ => none
  | fuel + 1, input =>
    match skipWs input with
    | 'n' :: 'u' :: 'l' :: 'l' :: rest => some (.null, rest)
    | 't' :: 'r' :: 'u' :: 'e' :: rest => some (.boolean true, rest)
    | 'f' :: 'a' :: 'l' :: 's' :: 'e' :: rest => some (.boolean false, rest)
    | '"' :: rest =>
      (parseStringBody rest).map (fun p => (.str (String.mk p.1), p.2))
    | '[' :: rest => (parseArrayRest fuel rest).map (fun p => (.arr p.1, p.2))
    | '-' :: rest =>
      (parseJSONNumberBody true rest).map (fun p => (.num p.1, p.2))
    | c :: rest =>
      if c = lbrace then (parseObjRest fuel rest).map (fun p => (.obj p.1, p.2))
      else if c.isDigit then
        (parseJSONNumberBody false (c :: rest)).map (fun p => (.num p.1, p.2))
      else none
    | [] => none

/-- Parses the remainder of a JSON array after `[`: either `]` at once or
a comma-separated item list. -/
def parseArrayRest : Nat → List Char → Option (List JSValue × List Char)
  | 0, _ => none
  | fuel + 1, input =>
    match skipWs input with
    | ']' :: rest => some ([], rest)
    | other => parseArrayItems fuel other

/-- Parses one or more comma-separated JSON array items up to `]`. -/
def parseArrayItems : Nat → List Char → Option (List JSValue × List Char)
  | 0, _ => none
  | fuel + 1, input =>
    match parseVal fuel input with
    | none => none
    | some (v, rest) =>
      match skipWs rest with
      | ',' :: rest2 =>
        (parseArrayItems fuel rest2).map (fun p => (v :: p.1, p.2))
      | ']' :: rest2 => some ([v], rest2)
      | _ => none

/-- Parses the remainder of a JSON object after the opening brace. -/
def parseObjRest : Nat → List Char → Option (List (String × JSValue) × List Char)
  | 0, _ => none
  | fuel + 1, input =>
    match skipWs input with
    | [] => none
    | c :: rest =>
      if c = rbrace then some ([], rest)
      else parseObjItems fuel (c :: rest)

/-- Parses one or more `"key": value` members up to the closing brace. -/
def parseObjItems : Nat → List Char → Option (List (String × JSValue) × List Char)
  | 0, _ => none
  | fuel + 1, input =>
    match skipWs input with
    | '"' :: rest =>
      match parseStringBody rest with
      | none => none
      | some (key, rest2) =>
        match skipWs rest2 with
        | ':' :: rest3 =>
          match parseVal fuel rest3 with
          | none => none
          | some (v, rest4) =>
            match skipWs rest4 with
            | ',' :: rest5 =>
              (parseObjItems fuel rest5).map
                (fun p => ((String.mk key, v) :: p.1, p.2))
            | c :: rest5 =>
              if c = rbrace then some ([(String.mk key, v)], rest5) else none
            | [] => none
        | _ => none
    | _ => none

end

/-- `JSON.parse(text)`: `none` models a thrown `SyntaxError`. -/
def jsonParse (text : String) : Option JSValue :=
  match parseVal (text.length + 2) text.data with
  | none => none
  | some (v, rest) => if skipWs rest = [] then some v else none

/-- JavaScript truthiness of a parsed value (as used by `|| []`). -/
def jsTruthy : JSValue → Bool
  | .null => false
  | .boolean b => b
  | .num n => n ≠ 0
  | .str s => s ≠ ""
  | .arr _ => true
  | .obj _ => true

/-- `cart.js` line 19:
`let cart = JSON.parse(localStorage.getItem('cart')) || [];`
`getItem` returns `null` when the key is absent; `JSON.parse(null)`
coerces its argument to the text `"null"`, which parses to the (falsy)
value `null`. An unparseable stored text makes `JSON.parse` throw, which
this initializer does not catch: modelled as `Except.error`. -/
def initCart (stored : Option String) : Except Unit JSValue :=
  match jsonParse (stored.getD "null") with
  | none => .error ()
  | some v => .ok (if jsTruthy v then v else .arr [])

/-- A JavaScript value as it can reach `updateQuantity`'s `newQuantity`
parameter from the DOM: a number (from the `+`/`−` buttons) or a raw text
(from the quantity `<input>`'s `this.value`). -/
inductive JSNum where
  | num (n : Int)
  | str (s : String)
deriving Repr, DecidableEq

/-- ECMAScript whitespace and line terminators, as trimmed by `ToNumber`
and `parseInt`. -/
def isJsWs (c : Char) : Bool :=
  c = ' ' ∨ c = '\t' ∨ c = '\n' ∨ c = '\r' ∨ c.toNat = 11 ∨ c.toNat = 12 ∨
  c.toNat = 160 ∨ c.toNat = 5760 ∨ (8192 ≤ c.toNat ∧ c.toNat ≤ 8202) ∨
  c.toNat = 8232 ∨ c.toNat = 8233 ∨ c.toNat = 8239 ∨ c.toNat = 8287 ∨
  c.toNat = 12288 ∨ c.toNat = 65279

/-- Skips ECMAScript whitespace. -/
def skipJsWs : List Char → List Char
  | c :: rest => if isJsWs c then skipJsWs rest else c :: rest
  | [] => []

/-- Result of `ToNumber` on a string when it is not `NaN`: a finite value
(kept as an exact rational) or one of the infinities. -/
inductive JSNumber where
  | finite (q : Rat)
  | posInf
  | negInf
deriving Repr, DecidableEq

/-- Consumes a maximal digit prefix in radix `r` (digit values via
`hexDigitVal`), accumulating value and digit count. -/
def radixAcc (r : Nat) (v k : Nat) : List Char → Nat × Nat × List Char
  | c :: rest =>
    match hexDigitVal c with
    | some d =>
      if d < r then radixAcc r (v * r + d) (k + 1) rest else (v, k, c :: rest)
    | none => (v, k, c :: rest)
  | [] => (v, k, [])

/-- Parses the body of a `0x`/`0o`/`0b` numeral in radix `r`; at least
one digit is required. -/
def parseRadix (r : Nat) (input : List Char) : Option (JSNumber × List Char) :=
  let d := radixAcc r 0 0 input
  if d.2.1 = 0 then none
  else some (JSNumber.finite (mkRat (Int.ofNat d.1) 1), d.2.2)

/-- Parses an unsigned decimal `ToNumber` literal: `digits`, `digits .
digits?`, or `. digits`, each with an optional exponent (unlike the JSON
grammar, leading zeros, a bare trailing dot, and a leading dot are all
allowed, as `ToNumber` accepts them). -/
def parseDecToNumber : List Char → Option (Rat × List Char)
  | '.' :: rest =>
    match rest with
    | c :: _ =>
      if c.isDigit then
        let d := digitsAccCount 0 0 rest
        (parseExpPart d.2.2).map (fun p =>
          (combineDec 0 d.1 d.2.1 p.1.1 p.1.2, p.2))
      else none
    | [] => none
  | input =>
    match input with
    | c :: _ =>
      if c.isDigit then
        let d := digitsAccCount 0 0 input
        match d.2.2 with
        | '.' :: r2 =>
          let f := digitsAccCount 0 0 r2
          (parseExpPart f.2.2).map (fun p =>
            (combineDec d.1 f.1 f.2.1 p.1.1 p.1.2, p.2))
        | r2 =>
          (parseExpPart r2).map (fun p =>
            (combineDec d.1 0 0 p.1.1 p.1.2, p.2))
      else none
    | [] => none

/-- Parses a signed decimal `ToNumber` literal, including the signed
`Infinity` literals. -/
def parseSignedDec (input : List Char) : Option (JSNumber × List Char) :=
  let p : Bool × List Char :=
    match input with
    | '-' :: r => (true, r)
    | '+' :: r => (false, r)
    | r => (false, r)
  match p.2 with
  | 'I' :: 'n' :: 'f' :: 'i' :: 'n' :: 'i' :: 't' :: 'y' :: r =>
    some (if p.1 then JSNumber.negInf else JSNumber.posInf, r)
  | rest =>
    match parseDecToNumber rest with
    | some (q, r) => some (JSNumber.finite (if p.1 then -q else q), r)
    | none => none

/-- The ECMAScript `StrNumericLiteral` grammar: an unsigned `0x`/`0o`/
`0b` numeral, or a signed decimal / `Infinity` literal (a sign before
`0x` is not allowed, matching `Number("-0x10") = NaN`). -/
def parseStrNumeric (input : List Char) : Option (JSNumber × List Char) :=
  match input with
  | '0' :: x :: rest =>
    if x = 'x' ∨ x = 'X' then parseRadix 16 rest
    else if x = 'o' ∨ x = 'O' then parseRadix 8 rest
    else if x = 'b' ∨ x = 'B' then parseRadix 2 rest
    else parseSignedDec input
  | _ => parseSignedDec input

/-- `Number(text)` / `ToNumber` on a string, `none` modelling `NaN`:
whitespace is trimmed on both sides, empty or whitespace-only text
converts to 0, and otherwise the whole trimmed text must be one
`StrNumericLiteral`. Values are exact rationals: IEEE double rounding is
not modelled, and rounding never changes the sign of a nonzero decimal
literal (subnormal underflow to zero is below any value this page's
inputs reach). -/
def toNumber (s : String) : Option JSNumber :=
  match skipJsWs s.data with
  | [] => some (JSNumber.finite 0)
  | chars =>
    match parseStrNumeric chars with
    | some (v, rest) => if skipJsWs rest = [] then some v else none
    | none => none

/-- The comparison `newQuantity <= 0` under JavaScript semantics: a
string operand is converted with `ToNumber`; a comparison involving
`NaN` is false; `-Infinity <= 0` is true. A finite rational is `≤ 0`
exactly when its numerator is (denominators are positive), stated on the
numerator so that the comparison evaluates by reduction. -/
def jsLeZero : JSNum → Bool
  | .num n => n ≤ 0
  | .str s =>
    match toNumber s with
    | some (JSNumber.finite q) => q.num ≤ 0
    | some JSNumber.posInf => false
    | some JSNumber.negInf => true
    | none => false

/-- A cart line whose `quantity` field carries a dynamically-typed value,
as the assignment `product.quantity = newQuantity` actually stores it. -/
structure ItemJS where
  id : Int
  name : String
  price : Int
  quantity : JSNum
deriving Repr, DecidableEq

/-- `cart.find(item => item.id === productId)` on the dynamic model. -/
def findItemJS (cart : List ItemJS) (productId : Int) : Option ItemJS :=
  cart.find? (fun item => item.id = productId)

/-- `splice` of the first matching line on the dynamic model. -/
def removeFirstJS (productId : Int) : List ItemJS → List ItemJS
  | [] => []
  | item :: rest =>
    if item.id = productId then rest else item :: removeFirstJS productId rest

/-- `product.quantity = newQuantity` on the dynamic model: the value is
stored exactly as passed, with no numeric coercion. -/
def setQtyFirstJS (productId : Int) (newQuantity : JSNum) :
    List ItemJS → List ItemJS
  | [] => []
  | item :: rest =>
    if item.id = productId then
      { item with quantity := newQuantity } :: rest
    else
      item :: setQtyFirstJS productId newQuantity rest

/-- `updateQuantity` (`cart.js` lines 107-130) with the dynamic typing of
`newQuantity` kept: the guard `newQuantity <= 0` coerces for comparison,
but the assignment on line 118 stores the raw value. Only the cart array
is tracked here (the persistence/render effects are as in
`updateQuantity` above). -/
def updateQuantityJS (productId : Int) (newQuantity : JSNum)
    (cart : List ItemJS) : List ItemJS :=
  match findItemJS cart productId with
  | none => cart
  | some _ =>
    if jsLeZero newQuantity then removeFirstJS productId cart
    else setQtyFirstJS productId newQuantity cart

/-- The two delayed callbacks `showToast` schedules: the outer
`setTimeout` body (sets `opacity` to 0 and schedules the inner one) and
the inner one (sets `display` to `none`). -/
inductive ToastAction where
  | hideOpacity
  | hideDisplay
deriving Repr, DecidableEq

/-- State of the toast element and of the timer queue: current time,
shown message, whether `opacity` is `'1'`, whether `display` is
`'block'`, and the pending `setTimeout` callbacks with their deadlines. -/
structure ToastState where
  now : Nat
  message : String
  opacity : Bool
  display : Bool
  timers : List (Nat × ToastAction)
deriving Repr, DecidableEq

/-- The page before any toast has been shown. -/
def toastInit : ToastState :=
  { now := 0, message := "", opacity := false, display := false, timers := [] }

/-- `showToast(message, duration)` (`cart.js` lines 245-285): sets the
message, makes the element visible, and schedules a hide at
`now + duration`. Note: it stores no timer handle and calls no
`clearTimeout`, so timers already pending stay pending. -/
def showToast (message : String) (duration : Nat) (s : ToastState) :
    ToastState :=
  { s with message := message, display := true, opacity := true,
           timers := s.timers ++ [(s.now + duration, ToastAction.hideOpacity)] }

/-- Runs one fired `setTimeout` callback. -/
def fireTimer : ToastAction → ToastState → ToastState
  | .hideOpacity, s =>
    { s with opacity := false,
             timers := s.timers ++ [(s.now + 220, ToastAction.hideDisplay)] }
  | .hideDisplay, s => { s with display := false }

/-- The pending timer with the earliest deadline not after `t` (ties go to
the earlier-scheduled one, as in the event loop). -/
def earliestDue (t : Nat) (timers : List (Nat × ToastAction)) :
    Option (Nat × ToastAction) :=
  timers.foldl
    (fun best timer =>
      if timer.1 ≤ t then
        match best with
        | none => some timer
        | some b => if timer.1 < b.1 then some timer else best
      else best)
    none

/-- Advances the clock to time `t`, firing every timer due on the way in
deadline order (fuel bounds the number of firings). -/
def advanceTo : Nat → Nat → ToastState → ToastState
  | 0, t, s => { s with now := t }
  | fuel + 1, t, s =>
    match earliestDue t s.timers with
    | none => { s with now := t }
    | some timer =>
      advanceTo fuel t
        (fireTimer timer.2 { s with now := timer.1, timers := s.timers.erase timer })

/-- `parseInt(text)` called with no radix argument (as the source does):
trims whitespace, accepts an optional sign, detects a `0x`/`0X` prefix
and then reads hexadecimal digits, otherwise reads a maximal decimal
digit prefix; trailing text is ignored, and the result is `NaN` (here
`none`) when no digit follows the optional sign and prefix. -/
def parseIntJS (s : String) : Option Int :=
  let p : Bool × List Char :=
    match skipJsWs s.data with
    | '-' :: r => (true, r)
    | '+' :: r => (false, r)
    | r => (false, r)
  let v : Option Nat :=
    match p.2 with
    | '0' :: x :: r2 =>
      if x = 'x' ∨ x = 'X' then
        let d := radixAcc 16 0 0 r2
        if d.2.1 = 0 then none else some d.1
      else
        let d := radixAcc 10 0 0 p.2
        if d.2.1 = 0 then none else some d.1
    | rest =>
      let d := radixAcc 10 0 0 rest
      if d.2.1 = 0 then none else some d.1
  match v with
  | some n => some (if p.1 then -(Int.ofNat n) else Int.ofNat n)
  | none => none

/-- The price upper bound in `filterProducts`: a number or `Infinity`. -/
inductive PriceBound where
  | val (n : Int)
  | inf
deriving Repr, DecidableEq

/-- `productPrice <= maxPrice`, where `maxPrice` may be `Infinity`. -/
def priceLE (p : Int) : PriceBound → Bool
  | .val m => p ≤ m
  | .inf => true

/-- `parseInt(document.getElementById('minPrice').value) || 0`
(`part_000` line 22): `NaN` is falsy, and so is a parsed `0`. -/
def minPriceOf (input : String) : Int :=
  match parseIntJS input with
  | some n => if n = 0 then 0 else n
  | none => 0

/-- `parseInt(document.getElementById('maxPrice').value) || Infinity`
(`part_000` line 27): `NaN` is falsy, and so is a parsed `0` — both fall
back to `Infinity`. -/
def maxPriceOf (input : String) : PriceBound :=
  match parseIntJS input with
  | some n => if n = 0 then PriceBound.inf else PriceBound.val n
  | none => PriceBound.inf

/-- `text.toLowerCase()`: character-wise lowering (executable form of
`String.toLower`, evaluating by reduction). -/
def toLowerStr (s : String) : String :=
  String.mk (s.data.map Char.toLower)

/-- A product card: its `data-name` and `data-price` attributes and
whether the `hidden` class is currently on it. -/
structure Card where
  dataName : String
  dataPrice : String
  hidden : Bool
deriving Repr, DecidableEq

/-- `text.includes(sub)`: substring containment. -/
def containsSub (text sub : String) : Bool :=
  (List.range (text.length + 1)).any (fun i => sub.isPrefixOf (text.drop i))

/-- The body of the `productCards.forEach` loop in `filterProducts`
(`part_000` lines 31-64): decides the card's `hidden` class from the
(already lowercased) search term and the price bounds. A card whose
`data-price` does not parse compares as `NaN`, so both `>=` and `<=` are
false and it is hidden. -/
def filterOne (searchTerm : String) (minPrice : Int) (maxPrice : PriceBound)
    (card : Card) : Card :=
  let productName := toLowerStr card.dataName
  let matchesSearch := containsSub productName searchTerm || searchTerm == ""
  let matchesPrice :=
    match parseIntJS card.dataPrice with
    | some productPrice =>
      decide (minPrice ≤ productPrice) && priceLE productPrice maxPrice
    | none => false
  if matchesSearch && matchesPrice then { card with hidden := false }
  else { card with hidden := true }

/-- `filterProducts()` (`part_000` lines 14-68): reads the three inputs,
lowercases the search term, computes the bounds with their falsy
fallbacks, and updates every card's visibility. -/
def filterProducts (searchInput minInput maxInput : String)
    (cards : List Card) : List Card :=
  let searchTerm := toLowerStr searchInput
  let minPrice := minPriceOf minInput
  let maxPrice := maxPriceOf maxInput
  cards.map (filterOne searchTerm minPrice maxPrice)

/-- One user-triggered Cart Manager operation (the argument of `clear`
is the user's answer to the confirmation prompt). -/
inductive Op where
  | add (productName : String) (price : Int) (productId : Int)
  | remove (productId : Int)
  | update (productId : Int) (newQuantity : Int)
  | clear (confirmed : Bool)
deriving Repr, DecidableEq

/-- Runs one operation on the page state. -/
def applyOp : Op → St → St
  | .add n p pid, s => addToCart n p pid s
  | .remove pid, s => removeFromCart pid s
  | .update pid q, s => updateQuantity pid q s
  | .clear c, s => clearCart c s

/-- Runs a sequence of operations left to right. -/
def runOps (ops : List Op) (s : St) : St :=
  ops.foldl (fun s op => applyOp op s) s

/-- Every line's quantity is at least 1 (the spec's quantity invariant,
stated positively over `Int`). -/
def qtyPos (cart : Cart) : Prop :=
  ∀ item ∈ cart, 1 ≤ item.quantity

/-- No two lines share an `id`. -/
def uniqueIds (cart : Cart) : Prop :=
  (cart.map Item.id).Nodup

example :
    (addToCart "BMW M3" 89900 1 emptyState).cart =
      [{ id := 1, name := "BMW M3", price := 89900, quantity := 1 }] := by
  decide

example :
    calculateTotal
      (addToCart "BMW M3" 89900 1 (addToCart "BMW M3" 89900 1 emptyState)).cart
      = 179800 := by
  decide

example : initCart none = .ok (.arr []) := rfl

example : initCart (some "\x7boops") = .error () := rfl

example :
    jsonParse (stringifyCart [{ id := 1, name := "M3", price := 2, quantity := 3 }]) =
      some (.arr [.obj [("id", .num 1), ("name", .str "M3"),
        ("price", .num 2), ("quantity", .num 3)]]) := rfl

example : jsonParse "1.5" = some (.num (mkRat 3 2)) := rfl

example : jsonParse "1e3" = some (.num 1000) := rfl

example : initCart (some "1.5") = .ok (.num (mkRat 3 2)) := rfl

example : initCart (some "-0") = .ok (.arr []) := rfl

example : toNumber "-1.5" = some (.finite (mkRat (-3) 2)) := by decide

example : toNumber "-1e3" = some (.finite (-1000)) := by decide

example : toNumber "-5 " = some (.finite (-5)) := by decide

example : toNumber "0x10" = some (.finite 16) := by decide

example : toNumber "-0x10" = none := by decide

example : jsLeZero (JSNum.str "-1.5") = true := by decide

example : jsLeZero (JSNum.str "-Infinity") = true := by decide

example : jsLeZero (JSNum.str "5") = false := by decide

example : jsLeZero (JSNum.str "abc") = false := by decide

example : parseIntJS "0x10" = some 16 := by decide

example : parseIntJS "-0x10" = some (-16) := by decide

example : parseIntJS "09" = some 9 := by decide

example : parseIntJS "12abc" = some 12 := by decide

example : parseIntJS "" = none := rfl

theorem findItem_of_first_match (pre : Cart) (item : Item) (post : Cart)
    (pid : Int) (hpre : ∀ x ∈ pre, x.id ≠ pid) (hitem : item.id = pid) :
    findItem (pre ++ item :: post) pid = some item := by
  induction pre with
  | nil => simp [findItem, List.find?_cons_of_pos, hitem]
  | cons a rest ih =>
    have ha : a.id ≠ pid := hpre a (List.mem_cons_self a rest)
    simp only [findItem, List.cons_append, List.find?_cons_of_neg, ha,
      decide_eq_true_eq, not_false_eq_true]
    exact ih (fun x hx => hpre x (List.mem_cons_of_mem a hx))

theorem findItem_of_no_match (cart : Cart) (pid : Int)
    (h : ∀ x ∈ cart, x.id ≠ pid) : findItem cart pid = none := by
  simp only [findItem, List.find?_eq_none, decide_eq_true_eq]
  exact h

theorem findItem_none_iff (cart : Cart) (pid : Int) :
    findItem cart pid = none ↔ ∀ x ∈ cart, x.id ≠ pid := by
  simp only [findItem, List.find?_eq_none, decide_eq_true_eq]

theorem incFirst_of_first_match (pre : Cart) (item : Item) (post : Cart)
    (pid : Int) (hpre : ∀ x ∈ pre, x.id ≠ pid) (hitem : item.id = pid) :
    incFirst pid (pre ++ item :: post) =
      pre ++ { item with quantity := item.quantity + 1 } :: post := by
  induction pre with
  | nil => simp [incFirst, hitem]
  | cons a rest ih =>
    have ha : a.id ≠ pid := hpre a (List.mem_cons_self a rest)
    simp only [List.cons_append, incFirst, ha, if_false]
    exact congrArg (a :: ·) (ih (fun x hx => hpre x (List.mem_cons_of_mem a hx)))

theorem setQtyFirst_of_first_match (pre : Cart) (item : Item) (post : Cart)
    (pid q : Int) (hpre : ∀ x ∈ pre, x.id ≠ pid) (hitem : item.id = pid) :
    setQtyFirst pid q (pre ++ item :: post) =
      pre ++ { item with quantity := q } :: post := by
  induction pre with
  | nil => simp [setQtyFirst, hitem]
  | cons a rest ih =>
    have ha : a.id ≠ pid := hpre a (List.mem_cons_self a rest)
    simp only [List.cons_append, setQtyFirst, ha, if_false]
    exact congrArg (a :: ·) (ih (fun x hx => hpre x (List.mem_cons_of_mem a hx)))

theorem addToCart_cart_eq (n : String) (p pid : Int) (s : St) :
    (addToCart n p pid s).cart =
      if (findItem s.cart pid).isSome then incFirst pid s.cart
      else s.cart ++ [{ id := pid, name := n, price := p, quantity := 1 }] := rfl

theorem addToCart_stored_mirror (n : String) (p pid : Int) (s : St) :
    (addToCart n p pid s).stored =
      some (stringifyCart (addToCart n p pid s).cart) := rfl

theorem removeFromCart_cart_eq (pid : Int) (s : St) :
    (removeFromCart pid s).cart = removeFirst pid s.cart := rfl

theorem removeFromCart_stored_mirror (pid : Int) (s : St) :
    (removeFromCart pid s).stored =
      some (stringifyCart (removeFromCart pid s).cart) := rfl

theorem clearCart_confirmed_stored_mirror (s : St) :
    (clearCart true s).stored =
      some (stringifyCart (clearCart true s).cart) := rfl

theorem updateQuantity_of_not_found (pid q : Int) (s : St)
    (h : findItem s.cart pid = none) : updateQuantity pid q s = s := by
  unfold updateQuantity
  rw [h]

theorem updateQuantity_of_found_nonpos (pid q : Int) (s : St) (item : Item)
    (hfound : findItem s.cart pid = some item) (hq : q ≤ 0) :
    updateQuantity pid q s = removeFromCart pid s := by
  unfold updateQuantity
  rw [hfound]
  simp [hq]

theorem updateQuantity_of_found_pos (pid q : Int) (s : St) (item : Item)
    (hfound : findItem s.cart pid = some item) (hq : ¬ q ≤ 0) :
    (updateQuantity pid q s).cart = setQtyFirst pid q s.cart ∧
    (updateQuantity pid q s).stored =
      some (stringifyCart (setQtyFirst pid q s.cart)) := by
  unfold updateQuantity
  rw [hfound]
  simp [hq, setItemCart, displayCart, updateCartCount]

theorem updateQuantity_stored_mirror (pid q : Int) (s : St)
    (h : (findItem s.cart pid).isSome) :
    (updateQuantity pid q s).stored =
      some (stringifyCart (updateQuantity pid q s).cart) := by
  obtain ⟨item, hitem⟩ := Option.isSome_iff_exists.mp h
  by_cases hq : q ≤ 0
  · rw [updateQuantity_of_found_nonpos pid q s item hitem hq]
    exact removeFromCart_stored_mirror pid s
  · obtain ⟨h1, h2⟩ := updateQuantity_of_found_pos pid q s item hitem hq
    rw [h1, h2]

theorem qtyPos_incFirst (pid : Int) (cart : Cart) (h : qtyPos cart) :
    qtyPos (incFirst pid cart) := by
  induction cart with
  | nil => intro item hmem; cases hmem
  | cons a rest ih =>
    intro item hmem
    by_cases ha : a.id = pid
    · simp only [incFirst, ha, if_true] at hmem
      rcases List.mem_cons.mp hmem with heq | htail
      · subst heq
        have ha2 := h a (List.mem_cons_self a rest)
        show 1 ≤ a.quantity + 1
        omega
      · exact h item (List.mem_cons_of_mem a htail)
    · simp only [incFirst, ha, if_false] at hmem
      rcases List.mem_cons.mp hmem with heq | htail
      · subst heq; exact h item (List.mem_cons_self item rest)
      · exact ih (fun x hx => h x (List.mem_cons_of_mem a hx)) item htail

theorem mem_removeFirst (pid : Int) (cart : Cart) (x : Item)
    (h : x ∈ removeFirst pid cart) : x ∈ cart := by
  induction cart with
  | nil => cases h
  | cons a rest ih =>
    by_cases ha : a.id = pid
    · simp only [removeFirst, ha, if_true] at h
      exact List.mem_cons_of_mem a h
    · simp only [removeFirst, ha, if_false] at h
      rcases List.mem_cons.mp h with heq | htail
      · subst heq; exact List.mem_cons_self x rest
      · exact List.mem_cons_of_mem a (ih htail)

theorem qtyPos_setQtyFirst (pid q : Int) (cart : Cart) (h : qtyPos cart)
    (hq : 1 ≤ q) : qtyPos (setQtyFirst pid q cart) := by
  induction cart with
  | nil => intro item hmem; cases hmem
  | cons a rest ih =>
    intro item hmem
    by_cases ha : a.id = pid
    · simp only [setQtyFirst, ha, if_true] at hmem
      rcases List.mem_cons.mp hmem with heq | htail
      · subst heq; exact hq
      · exact h item (List.mem_cons_of_mem a htail)
    · simp only [setQtyFirst, ha, if_false] at hmem
      rcases List.mem_cons.mp hmem with heq | htail
      · subst heq; exact h item (List.mem_cons_self item rest)
      · exact ih (fun x hx => h x (List.mem_cons_of_mem a hx)) item htail

theorem map_id_incFirst (pid : Int) (cart : Cart) :
    (incFirst pid cart).map Item.id = cart.map Item.id := by
  induction cart with
  | nil => rfl
  | cons a rest ih =>
    by_cases ha : a.id = pid
    · simp [incFirst, ha]
    · simp [incFirst, ha, ih]

theorem map_id_setQtyFirst (pid q : Int) (cart : Cart) :
    (setQtyFirst pid q cart).map Item.id = cart.map Item.id := by
  induction cart with
  | nil => rfl
  | cons a rest ih =>
    by_cases ha : a.id = pid
    · simp [setQtyFirst, ha]
    · simp [setQtyFirst, ha, ih]

theorem removeFirst_sublist (pid : Int) (cart : Cart) :
    List.Sublist (removeFirst pid cart) cart := by
  induction cart with
  | nil => exact List.Sublist.refl []
  | cons a rest ih =>
    by_cases ha : a.id = pid
    · simp only [removeFirst, ha, if_true]
      exact List.sublist_cons_self a rest
    · simp only [removeFirst, ha, if_false]
      exact List.Sublist.cons₂ a ih

theorem uniqueIds_incFirst (pid : Int) (cart : Cart) (h : uniqueIds cart) :
    uniqueIds (incFirst pid cart) := by
  unfold uniqueIds at *
  rw [map_id_incFirst]
  exact h

theorem uniqueIds_setQtyFirst (pid q : Int) (cart : Cart)
    (h : uniqueIds cart) : uniqueIds (setQtyFirst pid q cart) := by
  unfold uniqueIds at *
  rw [map_id_setQtyFirst]
  exact h

theorem uniqueIds_removeFirst (pid : Int) (cart : Cart) (h : uniqueIds cart) :
    uniqueIds (removeFirst pid cart) := by
  unfold uniqueIds at *
  exact List.Nodup.sublist (List.Sublist.map Item.id (removeFirst_sublist pid cart)) h

theorem uniqueIds_push (pid : Int) (n : String) (p : Int) (cart : Cart)
    (h : uniqueIds cart) (habs : findItem cart pid = none) :
    uniqueIds (cart ++ [{ id := pid, name := n, price := p, quantity := 1 }]) := by
  unfold uniqueIds at *
  rw [List.map_append]
  refine List.Nodup.append h (List.nodup_singleton pid) ?_
  intro a ha hb
  simp only [List.map_cons, List.map_nil, List.mem_singleton] at hb
  subst hb
  obtain ⟨x, hx, hxid⟩ := List.mem_map.mp ha
  exact (findItem_none_iff cart a).mp habs x hx hxid

theorem findItem_removeFirst (pid : Int) (cart : Cart) (h : uniqueIds cart) :
    findItem (removeFirst pid cart) pid = none := by
  induction cart with
  | nil => rfl
  | cons a rest ih =>
    unfold uniqueIds at h
    rw [List.map_cons, List.nodup_cons] at h
    by_cases ha : a.id = pid
    · simp only [removeFirst, ha, if_true]
      refine findItem_of_no_match rest pid (fun x hx hxid => h.1 ?_)
      rw [ha, ← hxid]
      exact List.mem_map_of_mem Item.id hx
    · simp only [removeFirst, ha, if_false, findItem]
      rw [List.find?_cons_of_neg _ (by simpa using ha)]
      exact ih h.2

theorem qtyPos_push (pid : Int) (n : String) (p : Int) (cart : Cart)
    (h : qtyPos cart) :
    qtyPos (cart ++ [{ id := pid, name := n, price := p, quantity := 1 }]) := by
  intro item hmem
  rcases List.mem_append.mp hmem with hl | hr
  · exact h item hl
  · rw [List.mem_singleton] at hr
    subst hr
    exact le_refl 1

theorem addToCart_inv (n : String) (p pid : Int) (s : St)
    (h : qtyPos s.cart ∧ uniqueIds s.cart) :
    qtyPos (addToCart n p pid s).cart ∧ uniqueIds (addToCart n p pid s).cart := by
  rw [addToCart_cart_eq]
  by_cases hf : (findItem s.cart pid).isSome
  · simp only [hf, if_true]
    exact ⟨qtyPos_incFirst pid s.cart h.1, uniqueIds_incFirst pid s.cart h.2⟩
  · simp only [hf, if_false]
    have hnone : findItem s.cart pid = none := Option.not_isSome_iff_eq_none.mp hf
    exact ⟨qtyPos_push pid n p s.cart h.1, uniqueIds_push pid n p s.cart h.2 hnone⟩

theorem removeFromCart_inv (pid : Int) (s : St)
    (h : qtyPos s.cart ∧ uniqueIds s.cart) :
    qtyPos (removeFromCart pid s).cart ∧ uniqueIds (removeFromCart pid s).cart := by
  rw [removeFromCart_cart_eq]
  exact ⟨fun item hmem => h.1 item (mem_removeFirst pid s.cart item hmem),
    uniqueIds_removeFirst pid s.cart h.2⟩

theorem updateQuantity_inv (pid q : Int) (s : St)
    (h : qtyPos s.cart ∧ uniqueIds s.cart) :
    qtyPos (updateQuantity pid q s).cart ∧ uniqueIds (updateQuantity pid q s).cart := by
  cases hf : findItem s.cart pid with
  | none => rw [updateQuantity_of_not_found pid q s hf]; exact h
  | some item =>
    by_cases hq : q ≤ 0
    · rw [updateQuantity_of_found_nonpos pid q s item hf hq]
      exact removeFromCart_inv pid s h
    · rw [(updateQuantity_of_found_pos pid q s item hf hq).1]
      exact ⟨qtyPos_setQtyFirst pid q s.cart h.1 (by omega),
        uniqueIds_setQtyFirst pid q s.cart h.2⟩

theorem clearCart_inv (c : Bool) (s : St)
    (h : qtyPos s.cart ∧ uniqueIds s.cart) :
    qtyPos (clearCart c s).cart ∧ uniqueIds (clearCart c s).cart := by
  cases c with
  | false => exact h
  | true =>
    constructor
    · intro item hmem; cases hmem
    · exact List.nodup_nil

theorem applyOp_inv (op : Op) (s : St) (h : qtyPos s.cart ∧ uniqueIds s.cart) :
    qtyPos (applyOp op s).cart ∧ uniqueIds (applyOp op s).cart := by
  cases op with
  | add n p pid => exact addToCart_inv n p pid s h
  | remove pid => exact removeFromCart_inv pid s h
  | update pid q => exact updateQuantity_inv pid q s h
  | clear c => exact clearCart_inv c s h

theorem runOps_inv (ops : List Op) (s : St)
    (h : qtyPos s.cart ∧ uniqueIds s.cart) :
    qtyPos (runOps ops s).cart ∧ uniqueIds (runOps ops s).cart := by
  induction ops generalizing s with
  | nil => exact h
  | cons op rest ih => exact ih (applyOp op s) (applyOp_inv op s h)

theorem calculateTotal_foldl (cart : Cart) (a : Int) :
    cart.foldl (fun total item => total + item.price * item.quantity) a =
      a + (cart.map (fun item => item.price * item.quantity)).sum := by
  induction cart generalizing a with
  | nil => simp
  | cons item rest ih =>
    simp only [List.foldl_cons, List.map_cons, List.sum_cons, ih]
    ring

theorem findItemJS_of_first_match (pre : List ItemJS) (item : ItemJS)
    (post : List ItemJS) (pid : Int)
    (hpre : ∀ x ∈ pre, x.id ≠ pid) (hitem : item.id = pid) :
    findItemJS (pre ++ item :: post) pid = some item := by
  induction pre with
  | nil => simp [findItemJS, List.find?_cons_of_pos, hitem]
  | cons a rest ih =>
    have ha : a.id ≠ pid := hpre a (List.mem_cons_self a rest)
    simp only [findItemJS, List.cons_append, List.find?_cons_of_neg, ha,
      decide_eq_true_eq, not_false_eq_true]
    exact ih (fun x hx => hpre x (List.mem_cons_of_mem a hx))

theorem setQtyFirstJS_of_first_match (pre : List ItemJS) (item : ItemJS)
    (post : List ItemJS) (pid : Int) (v : JSNum)
    (hpre : ∀ x ∈ pre, x.id ≠ pid) (hitem : item.id = pid) :
    setQtyFirstJS pid v (pre ++ item :: post) =
      pre ++ { item with quantity := v } :: post := by
  induction pre with
  | nil => simp [setQtyFirstJS, hitem]
  | cons a rest ih =>
    have ha : a.id ≠ pid := hpre a (List.mem_cons_self a rest)
    simp only [List.cons_append, setQtyFirstJS, ha, if_false]
    exact congrArg (a :: ·) (ih (fun x hx => hpre x (List.mem_cons_of_mem a hx)))

theorem removeFirstJS_of_first_match (pre : List ItemJS) (item : ItemJS)
    (post : List ItemJS) (pid : Int)
    (hpre : ∀ x ∈ pre, x.id ≠ pid) (hitem : item.id = pid) :
    removeFirstJS pid (pre ++ item :: post) = pre ++ post := by
  induction pre with
  | nil => simp [removeFirstJS, hitem]
  | cons a rest ih =>
    have ha : a.id ≠ pid := hpre a (List.mem_cons_self a rest)
    simp only [List.cons_append, removeFirstJS, ha, if_false]
    exact congrArg (a :: ·) (ih (fun x hx => hpre x (List.mem_cons_of_mem a hx)))

/-- C1: after every mutating Cart Manager operation returns (`addToCart`,
`removeFromCart`, `updateQuantity` with an existing id, confirmed
`clearCart`), the value stored under the `"cart"` key equals the
serialization of the in-memory cart. -/
theorem C1_store_mirror_after_mutation (n : String) (p pid q : Int) (s : St) :
    (addToCart n p pid s).stored =
      some (stringifyCart (addToCart n p pid s).cart)
    ∧ (removeFromCart pid s).stored =
      some (stringifyCart (removeFromCart pid s).cart)
    ∧ ((findItem s.cart pid).isSome →
      (updateQuantity pid q s).stored =
        some (stringifyCart (updateQuantity pid q s).cart))
    ∧ (clearCart true s).stored =
      some (stringifyCart (clearCart true s).cart) :=
  ⟨addToCart_stored_mirror n p pid s, removeFromCart_stored_mirror pid s,
    fun h => updateQuantity_stored_mirror pid q s h,
    clearCart_confirmed_stored_mirror s⟩

/-- Witness for C1 at a concrete state holding product 1. -/
theorem C1_store_mirror_witness :
    (addToCart "BMW M4" 105000 1 (addToCart "BMW M3" 89900 1 emptyState)).stored =
      some (stringifyCart
        (addToCart "BMW M4" 105000 1 (addToCart "BMW M3" 89900 1 emptyState)).cart)
    ∧ (removeFromCart 1 (addToCart "BMW M3" 89900 1 emptyState)).stored =
      some (stringifyCart
        (removeFromCart 1 (addToCart "BMW M3" 89900 1 emptyState)).cart)
    ∧ (updateQuantity 1 3 (addToCart "BMW M3" 89900 1 emptyState)).stored =
      some (stringifyCart
        (updateQuantity 1 3 (addToCart "BMW M3" 89900 1 emptyState)).cart)
    ∧ (clearCart true (addToCart "BMW M3" 89900 1 emptyState)).stored =
      some (stringifyCart
        (clearCart true (addToCart "BMW M3" 89900 1 emptyState)).cart) := by
  have h := C1_store_mirror_after_mutation "BMW M4" 105000 1 3
    (addToCart "BMW M3" 89900 1 emptyState)
  exact ⟨h.1, h.2.1, h.2.2.1 (by decide), h.2.2.2⟩

/-- C3: `addToCart` increments the quantity of an existing line (adding no
new line), appends `{id, name, price, quantity: 1}` at the end otherwise,
persists in both cases; adding product 1 twice from empty yields one line
with quantity 2 and total 179800. -/
theorem C3_addToCart_spec (n : String) (p pid : Int) (s : St) :
    (∀ pre item post, s.cart = pre ++ item :: post →
      (∀ x ∈ pre, x.id ≠ pid) → item.id = pid →
      (addToCart n p pid s).cart =
        pre ++ { item with quantity := item.quantity + 1 } :: post)
    ∧ ((∀ x ∈ s.cart, x.id ≠ pid) →
      (addToCart n p pid s).cart =
        s.cart ++ [{ id := pid, name := n, price := p, quantity := 1 }])
    ∧ (addToCart n p pid s).stored =
      some (stringifyCart (addToCart n p pid s).cart)
    ∧ (addToCart "BMW M3" 89900 1 (addToCart "BMW M3" 89900 1 emptyState)).cart =
      [{ id := 1, name := "BMW M3", price := 89900, quantity := 2 }]
    ∧ calculateTotal (addToCart "BMW M3" 89900 1
        (addToCart "BMW M3" 89900 1 emptyState)).cart = 179800 := by
  refine ⟨?_, ?_, addToCart_stored_mirror n p pid s, by decide, by decide⟩
  · intro pre item post hcart hpre hid
    rw [addToCart_cart_eq, hcart,
      findItem_of_first_match pre item post pid hpre hid]
    simp only [Option.isSome_some, if_true]
    exact incFirst_of_first_match pre item post pid hpre hid
  · intro hno
    rw [addToCart_cart_eq, findItem_of_no_match s.cart pid hno]
    simp

/-- Witness for C3: incrementing the existing line of product 1. -/
theorem C3_addToCart_witness :
    (addToCart "BMW M3" 89900 1 { emptyState with
        cart := [{ id := 1, name := "BMW M3", price := 89900, quantity := 1 }] }).cart =
      [{ id := 1, name := "BMW M3", price := 89900, quantity := 1 + 1 }] := by
  have h := (C3_addToCart_spec "BMW M3" 89900 1 { emptyState with
      cart := [{ id := 1, name := "BMW M3", price := 89900, quantity := 1 }] }).1
    [] { id := 1, name := "BMW M3", price := 89900, quantity := 1 } [] rfl
    (by simp) rfl
  simpa using h

/-- C5: `calculateTotal` returns exactly the sum over all lines of
`price * quantity` (0 for the empty cart); it is a pure function of the
cart in this embedding (it takes the cart and returns an integer, with
no state argument to mutate), and the arithmetic is exact integer
arithmetic with no rounding. -/
theorem C5_calculateTotal_spec (cart : Cart) :
    calculateTotal cart =
      (cart.map (fun item => item.price * item.quantity)).sum
    ∧ calculateTotal [] = 0 := by
  constructor
  · have h := calculateTotal_foldl cart 0
    simpa [calculateTotal] using h
  · rfl

/-- C6: for every operation sequence from the empty cart, no resulting
line has quantity ≤ 0, and reducing a line's quantity to ≤ 0 removes the
line entirely (no line with that id remains). -/
theorem C6_quantity_invariant (ops : List Op) :
    (∀ item ∈ (runOps ops emptyState).cart, ¬ item.quantity ≤ 0)
    ∧ (∀ pid q, q ≤ 0 →
      findItem (updateQuantity pid q (runOps ops emptyState)).cart pid = none) := by
  have hinv := runOps_inv ops emptyState
    ⟨fun item h => absurd h (List.not_mem_nil item), List.nodup_nil⟩
  constructor
  · intro item hmem
    have := hinv.1 item hmem
    omega
  · intro pid q hq
    cases hf : findItem (runOps ops emptyState).cart pid with
    | none =>
      rw [updateQuantity_of_not_found pid q _ hf]
      exact hf
    | some it =>
      rw [updateQuantity_of_found_nonpos pid q _ it hf hq,
        removeFromCart_cart_eq]
      exact findItem_removeFirst pid _ hinv.2

/-- Witness for C6 after one `addToCart` and a quantity update to 0. -/
theorem C6_quantity_invariant_witness :
    (∀ item ∈ (runOps [Op.add "BMW M3" 89900 1] emptyState).cart,
      ¬ item.quantity ≤ 0)
    ∧ findItem
        (updateQuantity 1 0 (runOps [Op.add "BMW M3" 89900 1] emptyState)).cart
        1 = none :=
  ⟨(C6_quantity_invariant [Op.add "BMW M3" 89900 1]).1,
    (C6_quantity_invariant [Op.add "BMW M3" 89900 1]).2 1 0 (by decide)⟩

/-- C7: a declined `clearCart` leaves the cart unchanged, issues no store
write and no re-render (it only logs); a confirmed `clearCart` empties
the cart and persists the empty serialization. -/
theorem C7_clearCart_spec (s : St) :
    (clearCart false s).cart = s.cart
    ∧ (clearCart false s).stored = s.stored
    ∧ (clearCart false s).writes = s.writes
    ∧ (clearCart false s).renders = s.renders
    ∧ (clearCart true s).cart = []
    ∧ (clearCart true s).stored = some (stringifyCart []) :=
  ⟨rfl, rfl, rfl, rfl, rfl, rfl⟩

set_option maxRecDepth 8192 in
/-- Counterexample to C8 as stated: first toast at t=0 for 2500ms, second
toast at t=2000 for 2500ms; the claim says the toast stays visible until
t=4500, but at t=2600 the first call's never-cancelled hide timer (fired
at t=2500) has already cleared the opacity. -/
theorem C8_counterexample_toast_hidden_early :
    2600 < 2000 + 2500
    ∧ (advanceTo 8 2600 (showToast "B" 2500
        (advanceTo 8 2000 (showToast "A" 2500 toastInit)))).opacity = false :=
  ⟨by norm_num, rfl⟩

set_option maxRecDepth 8192 in
/-- C8 amended: a second `showToast` while one is visible does replace
the message and re-show the element, but it cancels no pending timer
(the timer list keeps every earlier entry), so the earlier call's hide
fires on schedule and can clear the toast's opacity before the full
`duration2` has elapsed after the second call — shown on the concrete
schedule of the counterexample, where the toast shows `message2` but is
already transparent at t=2600 < 4500. -/
theorem C8_showToast_replaces_but_never_cancels (m : String) (d : Nat)
    (s : ToastState) (m1 m2 : String) :
    (showToast m d s).message = m
    ∧ (showToast m d s).opacity = true
    ∧ (showToast m d s).display = true
    ∧ (showToast m d s).timers =
      s.timers ++ [(s.now + d, ToastAction.hideOpacity)]
    ∧ (advanceTo 8 2600 (showToast m2 2500
        (advanceTo 8 2000 (showToast m1 2500 toastInit)))).message = m2
    ∧ (advanceTo 8 2600 (showToast m2 2500
        (advanceTo 8 2000 (showToast m1 2500 toastInit)))).opacity = false :=
  ⟨rfl, rfl, rfl, rfl, rfl, rfl⟩

/-- C9: when `addToCart` is called with an id already in the cart, the
existing line keeps its stored name and price (only the quantity
changes); the arguments' name and price are ignored in this case. -/
theorem C9_addToCart_keeps_name_price (n2 : String) (p2 pid : Int) (s : St)
    (pre : Cart) (item : Item) (post : Cart)
    (hcart : s.cart = pre ++ item :: post)
    (hpre : ∀ x ∈ pre, x.id ≠ pid) (hid : item.id = pid) :
    (addToCart n2 p2 pid s).cart =
      pre ++ { item with quantity := item.quantity + 1 } :: post
    ∧ ({ item with quantity := item.quantity + 1 }).name = item.name
    ∧ ({ item with quantity := item.quantity + 1 }).price = item.price := by
  refine ⟨?_, rfl, rfl⟩
  rw [addToCart_cart_eq, hcart,
    findItem_of_first_match pre item post pid hpre hid]
  simp only [Option.isSome_some, if_true]
  exact incFirst_of_first_match pre item post pid hpre hid

/-- Witness for C9: adding product 1 under a different name and price
leaves the stored name `BMW M3` and price 89900 on the line. -/
theorem C9_addToCart_keeps_name_price_witness :
    (addToCart "OTHER NAME" 5 1 { emptyState with
        cart := [{ id := 1, name := "BMW M3", price := 89900, quantity := 1 }] }).cart =
      [] ++ { id := 1, name := "BMW M3", price := 89900, quantity := 1 + 1 } :: []
    ∧ ({ id := 1, name := "BMW M3", price := 89900, quantity := 1 + 1 } : Item).name = "BMW M3"
    ∧ ({ id := 1, name := "BMW M3", price := 89900, quantity := 1 + 1 } : Item).price = 89900 := by
  have h := C9_addToCart_keeps_name_price "OTHER NAME" 5 1
    { emptyState with
      cart := [{ id := 1, name := "BMW M3", price := 89900, quantity := 1 }] }
    [] { id := 1, name := "BMW M3", price := 89900, quantity := 1 } [] rfl
    (by simp) rfl
  exact ⟨h.1, rfl, rfl⟩

/-- C10: in `filterProducts` a maximum-price input that is empty,
non-numeric, or `0` is treated as no upper bound (`parseInt(...) ||
Infinity` maps the falsy `NaN` and `0` both to `Infinity`), so with max
price `0` every product whose parsed price is at least the minimum price
gets the `hidden` class removed; an empty or non-numeric minimum price is
treated as 0. -/
theorem C10_filterProducts_fallbacks (minInput maxInput : String)
    (cards : List Card) (card : Card) (p : Int)
    (hmax : parseIntJS maxInput = none ∨ parseIntJS maxInput = some 0)
    (hcard : card ∈ cards)
    (hp : parseIntJS card.dataPrice = some p)
    (hmin : minPriceOf minInput ≤ p) :
    maxPriceOf maxInput = PriceBound.inf
    ∧ (∀ t, parseIntJS t = none → minPriceOf t = 0)
    ∧ { card with hidden := false } ∈ filterProducts "" minInput maxInput cards := by
  have hmaxinf : maxPriceOf maxInput = PriceBound.inf := by
    rcases hmax with h | h <;> simp [maxPriceOf, h]
  refine ⟨hmaxinf, fun t ht => by simp [minPriceOf, ht], ?_⟩
  unfold filterProducts
  rw [hmaxinf]
  refine List.mem_map.mpr ⟨card, hcard, ?_⟩
  have h0 : toLowerStr "" = "" := rfl
  have h1 : (("" : String) == "") = true := by decide
  simp [filterOne, h0, h1, hp, priceLE, decide_eq_true hmin]

/-- Witness for C10: with max price `0`, the BMW M3 card (price 89900)
is visible. -/
theorem C10_filterProducts_fallbacks_witness :
    maxPriceOf "0" = PriceBound.inf
    ∧ (∀ t, parseIntJS t = none → minPriceOf t = 0)
    ∧ { dataName := "BMW M3", dataPrice := "89900", hidden := false } ∈
      filterProducts "" "" "0"
        [{ dataName := "BMW M3", dataPrice := "89900", hidden := true }] := by
  have h := C10_filterProducts_fallbacks "" "0"
    [{ dataName := "BMW M3", dataPrice := "89900", hidden := true }]
    { dataName := "BMW M3", dataPrice := "89900", hidden := true } 89900
    (Or.inr (by decide)) (by simp) (by decide) (by decide)
  exact ⟨h.1, h.2.1, h.2.2⟩
